import Mathlib

/-!
Verification of the example-parsing and page-assembly pipeline of
`tools/generate.js`: the Segmenter (`extractCode` plus the triple-newline
split at its call site), the Example Loader (`renderSingleExamplePage`),
and the Site Builder (`buildSite`).

JS strings are modelled as lists of characters; the external syntax
highlighter (`hljs.highlight`) is abstracted as a function parameter, and
the filesystem is abstracted as explicit data (file listings and a
contents map).
-/

set_option maxRecDepth 8192

namespace Generate

/-- A JS string, modelled as its list of characters. -/
abbrev Str := List Char

/-- The single-line comment marker, the JS literal used in
`line.startsWith("//")` and `line.replace("//", "")`. -/
def marker : Str := ['/', '/']

/-- A newline, the separator in `section.split("\n")`. -/
def newline : Str := ['\n']

/-- The section delimiter, the JS literal in `contents.split("\n\n\n")`. -/
def sectionSep : Str := ['\n', '\n', '\n']

/-- If `pat` is a leading part of `s`, return the remainder (so that
`s = pat ++ rest`); otherwise `none`. -/
def chopTok : Str → Str → Option Str
  | [], s => some s
  | _ :: _, [] => none
  | a :: as, b :: bs => if a = b then chopTok as bs else none

/-- Models JS `s.startsWith(pat)`. -/
def startsWithL (pat s : Str) : Bool := (chopTok pat s).isSome

/-- Models JS `s.endsWith(pat)`. -/
def endsWithL (pat s : Str) : Bool := startsWithL pat.reverse s.reverse

/-- Worker for `splitStr`, with explicit fuel: every recursive call consumes
at least one character of the input, so fuel `s.length + 1` always suffices. -/
def splitAux (sep : Str) : Nat → Str → Str → List Str
  | 0, acc, s => [acc ++ s]
  | _ + 1, acc, [] => [acc]
  | fuel + 1, acc, c :: rest =>
    match chopTok sep (c :: rest) with
    | some rem => acc :: splitAux sep fuel [] rem
    | none => splitAux sep fuel (acc ++ [c]) rest

/-- Models JS `s.split(sep)` for a non-empty separator: leftmost,
non-overlapping matches; `"".split(sep)` is `[""]`. -/
def splitStr (sep s : Str) : List Str := splitAux sep (s.length + 1) [] s

/-- Worker for `replaceFirst`, with the same fuel discipline as `splitAux`. -/
def replaceAux (pat rep : Str) : Nat → Str → Str
  | 0, s => s
  | _ + 1, [] => []
  | fuel + 1, c :: rest =>
    match chopTok pat (c :: rest) with
    | some rem => rep ++ rem
    | none => c :: replaceAux pat rep fuel rest

/-- Models JS `s.replace(pat, rep)`: only the first occurrence of `pat`
is replaced. -/
def replaceFirst (pat rep s : Str) : Str := replaceAux pat rep (s.length + 1) s

/-- The external highlighter: `hljs.highlight(text, {language, ignoreIllegals})
.value`, abstracted as a function from language tag and source text to markup
text (out of scope for the core, per the spec). -/
abbrev Highlighter := String → Str → Str

/-- One comment/code section, `{ comment, code }` as pushed by `extractCode`;
`code` is highlighter output, not raw source. -/
structure Section where
  comment : Str
  code : Str
deriving DecidableEq

/-- One step of the line loop in `extractCode` (generate.js lines 42-48):
a line starting with `//` has its first marker occurrence replaced by the
empty string and lands in the comment accumulator with a newline appended;
any other line lands verbatim in the code accumulator with a newline. -/
def lineStep (acc : Str × Str) (line : Str) : Str × Str :=
  if startsWithL marker line then
    (acc.1 ++ replaceFirst marker [] line ++ newline, acc.2)
  else
    (acc.1, acc.2 ++ line ++ newline)

/-- The per-section accumulation loop of `extractCode` (generate.js lines
39-48): split the section on `"\n"` and fold the line classifier. -/
def splitBlock (sec : Str) : Str × Str :=
  (splitStr newline sec).foldl lineStep ([], [])

/-- generate.js `extractCode(sections, lang)` (lines 36-56), with the
external highlighter abstracted as `hl`. -/
def extractCode (hl : Highlighter) (sections : List Str) (lang : String) :
    List Section :=
  sections.map (fun sec =>
    { comment := (splitBlock sec).1, code := hl lang (splitBlock sec).2 })

/-- The Segmenter of the spec: split the source text on `"\n\n\n"` (as at
generate.js lines 91-92) and run `extractCode` over the blocks. -/
def segment (hl : Highlighter) (lang : String) (t : Str) : List Section :=
  extractCode hl (splitStr sectionSep t) lang

/-- generate.js line 91, `codeFileContents ? codeFileContents.split("\n\n\n")
: []`, for a file that is present with contents `t`: the JS truthiness test
sends the empty string (falsy) to `[]`, not to `[""]`. -/
def fileSections (t : Str) : List Str :=
  if t = [] then [] else splitStr sectionSep t

/-- The full per-file pipeline at generate.js lines 91-95: the guarded split
followed by `extractCode`. -/
def segmentFile (hl : Highlighter) (lang : String) (t : Str) : List Section :=
  extractCode hl (fileSections t) lang

/-- The segmented contents of one numbered subdirectory, the object pushed
onto `pageContents` at generate.js lines 94-97. -/
structure SubExample where
  code : List Section
  script : List Section
deriving DecidableEq

/-- A code-like file name: models `file.name.endsWith(".js")`. -/
def isCodeFile (f : String) : Bool := endsWithL ((".js").data) f.data

/-- A script-like file name: models `file.name.endsWith(".sh")`. -/
def isScriptFile (f : String) : Bool := endsWithL ((".sh").data) f.data

/-- One numbered subdirectory as the loader sees it: the names of its
regular files (dirents surviving the `isFile` filter) and their text
contents (`fs.readFileSync`). -/
structure SubDirFS where
  files : List String
  content : String → Str

/-- The sections of an optionally present file, generate.js lines 88-92:
a missing file reads as `null`, and the ternaries send both `null` and the
empty string to an empty section list. -/
def fileSectionsOpt : Option Str → List Str
  | some t => fileSections t
  | none => []

/-- The body of the subdirectory loop in `renderSingleExamplePage`
(generate.js lines 72-98) for one subdirectory: `none` when the iteration
hits a `continue`, otherwise the `{code, script}` pair that is pushed. -/
def loadSubDir (hl : Highlighter) (d : SubDirFS) : Option SubExample :=
  if d.files.length = 0 then none
  else
    let codeFile := d.files.find? isCodeFile
    let scriptFile := d.files.find? isScriptFile
    if codeFile = none ∧ scriptFile = none then none
    else some
      { code := extractCode hl (fileSectionsOpt (codeFile.map d.content)) ("javascript")
        script := extractCode hl (fileSectionsOpt (scriptFile.map d.content)) ("shell") }

/-- The whole subdirectory loop: `pageContents` after iterating over the
(already sorted) subdirectories. -/
def loadExample (hl : Highlighter) (subs : List SubDirFS) : List SubExample :=
  subs.filterMap (loadSubDir hl)

/-- Decimal digits to a number, most significant first. -/
def digitsToNat (l : List Char) : Nat :=
  l.foldl (fun a c => a * 10 + (c.toNat - ('0').toNat)) 0

/-- JS `parseInt`, restricted to the shapes that arise as directory names:
an optional minus sign followed by a longest run of decimal digits; `none`
models `NaN`. (Full `parseInt` also skips leading whitespace and accepts a
plus sign or radix prefixes; directory names are plain decimal integers per
the convention of spec section 4.2, so those cases do not arise.) -/
def parseIntJs (s : String) : Option Int :=
  match s.data with
  | '-' :: rest =>
    let ds := rest.takeWhile Char.isDigit
    if ds = [] then none else some (-(digitsToNat ds : Int))
  | l =>
    let ds := l.takeWhile Char.isDigit
    if ds = [] then none else some ((digitsToNat ds : Int))

/-- The numeric sort key of a directory name. The `getD 0` only totalises
the comparator; names are decimal integers per the directory convention,
so `parseIntJs` succeeds on every input the comparator is run on. -/
def subDirKey (s : String) : Int := (parseIntJs s).getD 0

/-- The ordering induced by the comparator
`(a, b) => parseInt(a.name) - parseInt(b.name)` at generate.js line 68:
`a` sorts no later than `b` when the comparator is non-positive. -/
def subDirLe (a b : String) : Prop := subDirKey a ≤ subDirKey b

instance : DecidableRel subDirLe := fun a b => Int.decLe (subDirKey a) (subDirKey b)

instance : IsTotal String subDirLe := ⟨fun _ _ => Int.le_total _ _⟩

instance : IsTrans String subDirLe := ⟨fun _ _ _ hab hbc => le_trans hab hbc⟩

/-- The subdirectory ordering of generate.js line 68: JS `Array.sort` is a
stable sort under the comparator, modelled by the stable `insertionSort`
under `subDirLe`. -/
def sortSubDirs (names : List String) : List String :=
  List.insertionSort subDirLe names

/-- One catalog entry: an item of `contents.json`, the fields `buildSite`
and the renderer consume. -/
structure Entry where
  dir : String
  slug : String
  title : String
  description : String
deriving DecidableEq

/-- One catalog category, `{ name, items }`. -/
structure Category where
  name : String
  items : List Entry
deriving DecidableEq

/-- The parsed catalog document, `{ categories: [...] }`. -/
structure Catalog where
  categories : List Category
deriving DecidableEq

/-- A navigation target: a catalog entry, or the root sentinel, the JS
object `{ slug: "/" }` supplied by the `??` fallbacks at generate.js
lines 177-178. -/
inductive NavTarget where
  | entry (e : Entry)
  | root
deriving DecidableEq

/-- generate.js line 149: `contents.categories.flatMap(cat => cat.items)`. -/
def flattenCatalog (c : Catalog) : List Entry :=
  c.categories.flatMap (fun cat => cat.items)

/-- generate.js lines 152-154: the flattened list filtered by directory
existence; `ex` abstracts `fs.existsSync(path.join(examplesDir, dir))` as a
predicate on `dir`. -/
def filteredExamples (ex : String → Bool) (c : Catalog) : List Entry :=
  (flattenCatalog c).filter (fun e => ex e.dir)

/-- generate.js lines 157-162: per-category existence filtering, dropping
categories left with no items. -/
def filteredCategories (ex : String → Bool) (c : Catalog) : List Category :=
  (c.categories.map (fun cat =>
    { name := cat.name, items := cat.items.filter (fun i => ex i.dir) }))
    |>.filter (fun cat => 0 < cat.items.length)

/-- JS array indexing with a possibly negative index: `undefined` is `none`. -/
def jsGet (l : List Entry) (i : Int) : Option Entry :=
  if i < 0 then none else l[i.toNat]?

/-- The nullish-coalescing fallback at generate.js lines 177-178: a present
entry, else the root sentinel. -/
def orRoot : Option Entry → NavTarget
  | some e => NavTarget.entry e
  | none => NavTarget.root

/-- The navigation-enriched object handed to `renderSingleExamplePage` for
one list position (generate.js lines 176-181). -/
structure PageData where
  entry : Entry
  next : NavTarget
  previous : NavTarget
deriving DecidableEq

/-- The per-entry loop of `buildSite` (generate.js lines 176-182): each
filtered entry, enriched with `next` from index `i + 1` and `previous`
from index `i - 1` (JS index `-1` reads as `undefined`), both falling
back to the root sentinel. -/
def buildPages (ex : String → Bool) (c : Catalog) : List PageData :=
  (filteredExamples ex c).enum.map (fun p =>
    { entry := p.2
      next := orRoot (jsGet (filteredExamples ex c) ((p.1 : Int) + 1))
      previous := orRoot (jsGet (filteredExamples ex c) ((p.1 : Int) - 1)) })

/-- The index-page render payload (generate.js lines 164-171): the filtered
category structure, with `next` read at index `0` and `previous` at index
`length - 1`, plain indexing with no fallback. -/
structure IndexPage where
  categories : List Category
  next : Option Entry
  previous : Option Entry
deriving DecidableEq

/-- generate.js lines 164-171. -/
def indexPage (ex : String → Bool) (c : Catalog) : IndexPage :=
  { categories := filteredCategories ex c
    next := jsGet (filteredExamples ex c) 0
    previous := jsGet (filteredExamples ex c)
      (((filteredExamples ex c).length : Int) - 1) }

/-! ## Helper lemmas -/

/-- The split worker never returns the empty list: every branch yields a
cons. -/
lemma splitAux_ne_nil (sep : Str) :
    ∀ (fuel : Nat) (acc s : Str), splitAux sep fuel acc s ≠ [] := by
  intro fuel
  induction fuel with
  | zero => intro acc s; simp [splitAux]
  | succ n ih =>
    intro acc s
    cases s with
    | nil => simp [splitAux]
    | cons c rest =>
      cases h : chopTok sep (c :: rest) with
      | some rem => simp [splitAux, h]
      | none => simpa [splitAux, h] using ih _ _

/-- JS `split` always yields at least one piece. -/
lemma splitStr_ne_nil (sep s : Str) : splitStr sep s ≠ [] :=
  splitAux_ne_nil sep _ [] s

/-- Unrolling the line loop of `extractCode` from an arbitrary accumulator:
the comment accumulator collects the once-stripped comment-classified lines
and the code accumulator the remaining lines verbatim, each line with a
newline appended. -/
lemma foldl_lineStep (lines : List Str) (acc : Str × Str) :
    lines.foldl lineStep acc =
      (acc.1 ++ ((lines.filter (fun l => startsWithL marker l)).map
          (fun l => replaceFirst marker [] l ++ newline)).flatten,
       acc.2 ++ ((lines.filter (fun l => !startsWithL marker l)).map
          (fun l => l ++ newline)).flatten) := by
  induction lines generalizing acc with
  | nil => simp
  | cons x xs ih =>
    by_cases h : startsWithL marker x
    · simp [List.foldl_cons, lineStep, h, ih, List.append_assoc]
    · simp [List.foldl_cons, lineStep, h, ih, List.append_assoc]

/-- The closed form of the per-section loop. -/
lemma splitBlock_eq (sec : Str) :
    splitBlock sec =
      ((((splitStr newline sec).filter (fun l => startsWithL marker l)).map
          (fun l => replaceFirst marker [] l ++ newline)).flatten,
       (((splitStr newline sec).filter (fun l => !startsWithL marker l)).map
          (fun l => l ++ newline)).flatten) := by
  simpa using foldl_lineStep (splitStr newline sec) ([], [])

/-- A flattened list of newline-terminated pieces is empty or ends in a
newline. -/
lemma flatten_newline_pieces (g : Str → Str) (L : List Str) :
    ((L.map (fun l => g l ++ newline)).flatten = []) ∨
      ∃ u, (L.map (fun l => g l ++ newline)).flatten = u ++ newline := by
  induction L with
  | nil => left; rfl
  | cons x xs ih =>
    right
    rcases ih with h | ⟨u, hu⟩
    · exact ⟨g x, by simp [h]⟩
    · exact ⟨g x ++ newline ++ u, by simp [hu, List.append_assoc]⟩

/-! ## Claim theorems: the Segmenter -/

/-- C1 (counterexample): on the scenario input, the comments produced by the
Segmenter are not `"hello\n"` and `"world\n"` — JS `replace("//", "")`
removes only the marker itself, keeping the space that follows it. -/
theorem c1_counterexample :
    ¬ ((segment (fun _ s => s) ("javascript")
          (("// hello\nconst x = 1;\n\n\n// world\nconst y = 2;").data)).map
        Section.comment = [(("hello\n").data), (("world\n").data)]) := by
  decide

/-- C1 (amended): for the scenario input the Segmenter returns exactly two
sections, with comments `" hello\n"` and `" world\n"` (the space after the
marker is preserved) and codes `highlight("const x = 1;\n")` and
`highlight("const y = 2;\n")`. -/
theorem c1_segment_scenario (hl : Highlighter) :
    segment hl ("javascript")
        (("// hello\nconst x = 1;\n\n\n// world\nconst y = 2;").data) =
      [{ comment := ((" hello\n").data),
         code := hl ("javascript") (("const x = 1;\n").data) },
       { comment := ((" world\n").data),
         code := hl ("javascript") (("const y = 2;\n").data) }] := by
  have h : splitStr sectionSep
        (("// hello\nconst x = 1;\n\n\n// world\nconst y = 2;").data)
      = [(("// hello\nconst x = 1;").data), (("// world\nconst y = 2;").data)] := by
    decide
  have h1 : splitBlock (("// hello\nconst x = 1;").data)
      = (((" hello\n").data), (("const x = 1;\n").data)) := by decide
  have h2 : splitBlock (("// world\nconst y = 2;").data)
      = (((" world\n").data), (("const y = 2;\n").data)) := by decide
  simp [segment, extractCode, h, h1, h2]

/-- C2 (counterexample): on the input `"////x"` the produced comment is
`"//x\n"`, whose first line still begins with the marker — JS
`replace("//", "")` strips only the first occurrence. -/
theorem c2_counterexample :
    (segment (fun _ s => s) ("javascript") (("////x").data)).map Section.comment
        = [(("//x\n").data)]
    ∧ startsWithL marker (("//x").data) = true
    ∧ (splitStr newline (("//x\n").data)).head? = some (("//x").data) := by
  decide

/-- C2 (amended): in every Section the Segmenter produces, the comment text
is exactly the comment-classified lines with the FIRST occurrence of the
marker removed (and a newline appended); a line starting with a repeated
marker such as `"////x"` therefore keeps a leading `"//"`. -/
theorem c2_marker_stripped_once (hl : Highlighter) (lang : String) (t : Str) :
    (segment hl lang t).map Section.comment
      = (splitStr sectionSep t).map (fun sec =>
          (((splitStr newline sec).filter (fun l => startsWithL marker l)).map
            (fun l => replaceFirst marker [] l ++ newline)).flatten) := by
  simp only [segment, extractCode, List.map_map]
  refine List.map_congr_left ?_
  intro sec _
  simp [Function.comp, splitBlock_eq]

/-- C3 (counterexample): for the empty source text the per-file pipeline of
generate.js lines 91-95 returns the empty section list — the JS truthiness
test on the file contents sends the empty string to `[]`, so the single
empty block is dropped, not emitted. -/
theorem c3_counterexample :
    segmentFile (fun _ s => s) ("javascript") ([] : Str) = []
    ∧ (segmentFile (fun _ s => s) ("javascript") ([] : Str)).length = 0 := by
  constructor
  · rfl
  · rfl

/-- C3 (amended): for every non-empty source text the pipeline agrees with
the unguarded Segmenter and returns a non-empty section list; for the empty
text the pipeline returns `[]` (the empty block is dropped by the truthiness
guard), while the unguarded split-then-extract would return exactly one
Section with empty comment and code equal to the highlighter applied to a
single newline. -/
theorem c3_nonempty_guarded (hl : Highlighter) (lang : String) :
    (∀ t : Str, t ≠ [] →
      segmentFile hl lang t = segment hl lang t ∧ segment hl lang t ≠ [])
    ∧ segmentFile hl lang [] = []
    ∧ segment hl lang [] = [{ comment := [], code := hl lang newline }] := by
  refine ⟨?_, rfl, ?_⟩
  · intro t ht
    refine ⟨by simp [segmentFile, fileSections, segment, ht], ?_⟩
    intro hcon
    exact splitStr_ne_nil sectionSep t
      (by simpa [segment, extractCode] using hcon)
  · have hsplit : splitStr sectionSep ([] : Str) = [[]] := rfl
    have hb : splitBlock ([] : Str) = ([], newline) := by decide
    simp [segment, extractCode, hsplit, hb]

/-- C3 (witness): the amended theorem applied at the one-character text
`"a"`. -/
theorem c3_witness :
    segmentFile (fun _ s => s) ("javascript") (['a'])
        = segment (fun _ s => s) ("javascript") (['a'])
    ∧ segment (fun _ s => s) ("javascript") (['a']) ≠ [] :=
  (c3_nonempty_guarded (fun _ s => s) ("javascript")).1 (['a']) (by decide)

/-- C9: a line is classified as a comment exactly when it begins with the
marker `"//"` at position zero: the per-section loop separates the lines by
`startsWith`, a line whose first character is not `'/'` (such as one with
leading whitespace) never satisfies it, and `"  // indented"` lands
verbatim, marker included, in the raw code text. -/
theorem c9_classification :
    (∀ sec : Str,
      splitBlock sec =
        ((((splitStr newline sec).filter (fun l => startsWithL marker l)).map
            (fun l => replaceFirst marker [] l ++ newline)).flatten,
         (((splitStr newline sec).filter (fun l => !startsWithL marker l)).map
            (fun l => l ++ newline)).flatten))
    ∧ (∀ (c : Char) (l : Str), c ≠ '/' → startsWithL marker (c :: l) = false)
    ∧ splitBlock (("  // indented").data) = ([], (("  // indented\n").data)) := by
  refine ⟨splitBlock_eq, ?_, by decide⟩
  intro c l h
  simp [startsWithL, marker, chopTok, Ne.symm h]

/-- C9 (witness): the classification fact applied at the concrete leading
character `' '`. -/
theorem c9_witness :
    startsWithL marker (' ' :: (('/') :: (('x') :: []))) = false :=
  c9_classification.2.1 ' ' (('/') :: (('x') :: [])) (by decide)

/-- C10: in every Section, the accumulated comment text and raw code text
are newline-terminated when non-empty (every accumulated line, the block's
final line included, gains a trailing newline), and the entirely empty
block yields raw code text `"\n"` — a single newline, not the empty
string — which is what reaches the highlighter. -/
theorem c10_trailing_newlines :
    (∀ sec : Str,
      ((splitBlock sec).1 = [] ∨ ∃ u, (splitBlock sec).1 = u ++ newline)
      ∧ ((splitBlock sec).2 = [] ∨ ∃ u, (splitBlock sec).2 = u ++ newline))
    ∧ splitBlock [] = ([], newline)
    ∧ (∀ (hl : Highlighter) (lang : String),
        segment hl lang [] = [{ comment := [], code := hl lang newline }]) := by
  refine ⟨?_, by decide, ?_⟩
  · intro sec
    rw [splitBlock_eq]
    constructor
    · simpa using flatten_newline_pieces (fun l => replaceFirst marker [] l)
        ((splitStr newline sec).filter (fun l => startsWithL marker l))
    · simpa using flatten_newline_pieces (fun l => l)
        ((splitStr newline sec).filter (fun l => !startsWithL marker l))
  · intro hl lang
    have hsplit : splitStr sectionSep ([] : Str) = [[]] := rfl
    have hb : splitBlock ([] : Str) = ([], newline) := by decide
    simp [segment, extractCode, hsplit, hb]

/-! ## Claim theorems: the Example Loader -/

/-- C6: the subdirectory ordering of generate.js line 68 sorts by the
numeric value of the directory names: `"2", "10", "1"` come out as
`"1", "2", "10"` (not lexicographic), and in general the sorted list is a
permutation of the input that is ascending under the `parseInt` key. -/
theorem c6_numeric_order :
    sortSubDirs [("2"), ("10"), ("1")] = [("1"), ("2"), ("10")]
    ∧ ∀ names : List String,
        (sortSubDirs names).Perm names
        ∧ List.Sorted subDirLe (sortSubDirs names) :=
  ⟨by decide, fun names =>
    ⟨List.perm_insertionSort subDirLe names,
     List.sorted_insertionSort subDirLe names⟩⟩

/-- C7: a subdirectory with neither a `.js` nor a `.sh` file contributes
nothing (the loop `continue`s) and does not abort the remaining
subdirectories; a subdirectory with exactly one of the two yields a
`SubExample` whose missing side is the empty Section list, not an error. -/
theorem c7_missing_file_tolerance (hl : Highlighter) :
    (∀ (a b : List SubDirFS) (d : SubDirFS),
        d.files.find? isCodeFile = none →
        d.files.find? isScriptFile = none →
        loadSubDir hl d = none
        ∧ loadExample hl (a ++ d :: b) = loadExample hl a ++ loadExample hl b)
    ∧ (∀ (d : SubDirFS) (f : String),
        d.files.find? isCodeFile = some f →
        d.files.find? isScriptFile = none →
        ∃ u, loadSubDir hl d = some u ∧ u.script = [])
    ∧ (∀ (d : SubDirFS) (f : String),
        d.files.find? isCodeFile = none →
        d.files.find? isScriptFile = some f →
        ∃ u, loadSubDir hl d = some u ∧ u.code = []) := by
  refine ⟨?_, ?_, ?_⟩
  · intro a b d hc hs
    have hnone : loadSubDir hl d = none := by
      by_cases hlen : d.files.length = 0
      · simp [loadSubDir, hlen]
      · simp [loadSubDir, hlen, hc, hs]
    refine ⟨hnone, ?_⟩
    simp [loadExample, List.filterMap_append, List.filterMap_cons, hnone]
  · intro d f hc hs
    have hlen : ¬ d.files.length = 0 := by
      intro h0
      rw [List.length_eq_zero.mp h0] at hc
      exact Option.noConfusion hc
    have hu : loadSubDir hl d = some
        { code := extractCode hl (fileSectionsOpt (some (d.content f)))
            ("javascript")
          script := [] } := by
      simp [loadSubDir, hlen, hc, hs, fileSectionsOpt, extractCode]
    exact ⟨_, hu, rfl⟩
  · intro d f hc hs
    have hlen : ¬ d.files.length = 0 := by
      intro h0
      rw [List.length_eq_zero.mp h0] at hs
      exact Option.noConfusion hs
    have hu : loadSubDir hl d = some
        { code := []
          script := extractCode hl (fileSectionsOpt (some (d.content f)))
            ("shell") } := by
      simp [loadSubDir, hlen, hc, hs, fileSectionsOpt, extractCode]
    exact ⟨_, hu, rfl⟩

/-- A subdirectory holding only a text file: no code file, no script file. -/
def subDirBare : SubDirFS := ⟨[("notes.txt")], fun _ => []⟩

/-- A subdirectory holding a single code file. -/
def subDirJs : SubDirFS := ⟨[("main.js")], fun _ => (("// t\n1;").data)⟩

/-- C7 (witness): the tolerance theorem applied to a bare subdirectory
between two code-bearing ones. -/
theorem c7_witness :
    loadSubDir (fun _ s => s) subDirBare = none
    ∧ loadExample (fun _ s => s) ([subDirJs] ++ subDirBare :: [subDirJs])
        = loadExample (fun _ s => s) [subDirJs]
            ++ loadExample (fun _ s => s) [subDirJs] :=
  (c7_missing_file_tolerance (fun _ s => s)).1 [subDirJs] [subDirJs] subDirBare
    (by decide) (by decide)

/-! ## Claim theorems: the Site Builder -/

/-- C4: the page rendered for the filtered entry at position `i` carries
`next` equal to the entry at position `i + 1` — or the root sentinel when
`i` is last, so that the lookup is out of range — and `previous` equal to
the entry at position `i - 1`, or the root sentinel when `i` is first. -/
theorem c4_linear_navigation (ex : String → Bool) (c : Catalog) (i : Nat)
    (e : Entry) (h : (filteredExamples ex c)[i]? = some e) :
    (buildPages ex c)[i]? = some
      { entry := e
        next := orRoot ((filteredExamples ex c)[i + 1]?)
        previous := if i = 0 then NavTarget.root
          else orRoot ((filteredExamples ex c)[i - 1]?) } := by
  have hnext : jsGet (filteredExamples ex c) ((i : Int) + 1)
      = (filteredExamples ex c)[i + 1]? := by
    have h1 : ¬ (((i : Int) + 1) < 0) := by omega
    have h2 : ((i : Int) + 1).toNat = i + 1 := by omega
    simp only [jsGet]
    rw [if_neg h1, h2]
  have hprev : orRoot (jsGet (filteredExamples ex c) ((i : Int) - 1))
      = (if i = 0 then NavTarget.root
          else orRoot ((filteredExamples ex c)[i - 1]?)) := by
    by_cases h0 : i = 0
    · subst h0
      have h1 : ((0 : Nat) : Int) - 1 < 0 := by omega
      simp only [jsGet]
      rw [if_pos h1]
      simp [orRoot]
    · have hge : ¬ ((i : Int) - 1 < 0) := by omega
      have htn : ((i : Int) - 1).toNat = i - 1 := by omega
      simp only [jsGet]
      rw [if_neg hge, htn, if_neg h0]
  have hb : (buildPages ex c)[i]? = Option.map
      (fun p : Nat × Entry =>
        ({ entry := p.2
           next := orRoot (jsGet (filteredExamples ex c) ((p.1 : Int) + 1))
           previous := orRoot (jsGet (filteredExamples ex c)
             ((p.1 : Int) - 1)) } : PageData))
      ((filteredExamples ex c).enum[i]?) := by
    simp only [buildPages]
    rw [List.getElem?_map]
  rw [hb, List.getElem?_enum, h]
  simp only [Option.map_some']
  rw [hnext, hprev]

/-- An entry whose directory exists. -/
def entryA : Entry := ⟨("fs-basics"), ("fs-basics"), ("FS"), ("files")⟩

/-- A second existing entry. -/
def entryB : Entry := ⟨("http-server"), ("http-server"), ("HTTP"), ("web")⟩

/-- A third existing entry, in a later category. -/
def entryC : Entry := ⟨("streams"), ("streams"), ("Streams"), ("pipes")⟩

/-- An entry whose backing directory is missing. -/
def entryGone : Entry := ⟨("gone"), ("gone"), ("Gone"), ("absent")⟩

/-- The sample existence predicate: every directory except `"gone"`. -/
def sampleEx : String → Bool := fun d => !(d = ("gone"))

/-- A sample catalog: two surviving categories and one that filters away. -/
def sampleCatalog : Catalog :=
  ⟨[⟨("core"), [entryA, entryGone, entryB]⟩,
    ⟨("net"), [entryC]⟩,
    ⟨("old"), [entryGone]⟩]⟩

/-- C4 (witness): the navigation theorem at position 1 of the sample
catalog. -/
theorem c4_witness :
    (buildPages sampleEx sampleCatalog)[1]? = some
      { entry := entryB
        next := orRoot ((filteredExamples sampleEx sampleCatalog)[1 + 1]?)
        previous := if 1 = 0 then NavTarget.root
          else orRoot ((filteredExamples sampleEx sampleCatalog)[1 - 1]?) } :=
  c4_linear_navigation sampleEx sampleCatalog 1 entryB (by decide)

/-- C5: whenever the filtered list is non-empty, the index page is rendered
with `next` the first filtered entry and `previous` the last filtered entry
(wraparound across the ends, not the root sentinel). -/
theorem c5_root_navigation (ex : String → Bool) (c : Catalog)
    (h : filteredExamples ex c ≠ []) :
    (indexPage ex c).next = some ((filteredExamples ex c).head h)
    ∧ (indexPage ex c).previous = some ((filteredExamples ex c).getLast h) := by
  constructor
  · show jsGet (filteredExamples ex c) 0 = _
    have h1 : ¬ ((0 : Int) < 0) := by omega
    simp only [jsGet]
    rw [if_neg h1]
    show (filteredExamples ex c)[(0 : Nat)]? = _
    rw [← List.head?_eq_getElem?, List.head?_eq_head h]
  · show jsGet (filteredExamples ex c)
        (((filteredExamples ex c).length : Int) - 1) = _
    have hpos : 0 < (filteredExamples ex c).length := List.length_pos.mpr h
    have hge : ¬ (((filteredExamples ex c).length : Int) - 1 < 0) := by omega
    have htn : (((filteredExamples ex c).length : Int) - 1).toNat
        = (filteredExamples ex c).length - 1 := by omega
    simp only [jsGet]
    rw [if_neg hge, htn]
    rw [List.getElem?_eq_getElem (by omega)]
    rw [List.getLast_eq_getElem]

/-- C5 (witness): the root-navigation theorem on the sample catalog. -/
theorem c5_witness :
    (indexPage sampleEx sampleCatalog).next
        = some ((filteredExamples sampleEx sampleCatalog).head (by decide))
    ∧ (indexPage sampleEx sampleCatalog).previous
        = some ((filteredExamples sampleEx sampleCatalog).getLast (by decide)) :=
  c5_root_navigation sampleEx sampleCatalog (by decide)

/-- Dropping the empty item lists does not change the concatenation. -/
lemma flatten_filter_nonempty (L : List Category) :
    ((L.filter (fun cat => 0 < cat.items.length)).map
        (fun cat => cat.items)).flatten
      = (L.map (fun cat => cat.items)).flatten := by
  induction L with
  | nil => rfl
  | cons x xs ih =>
    by_cases hx : 0 < x.items.length
    · simp [List.filter_cons, hx, ih]
    · have : x.items = [] := by
        cases hlen : x.items.length with
        | zero => exact List.length_eq_zero.mp hlen
        | succ n => rw [hlen] at hx; omega
      simp [List.filter_cons, hx, ih, this]

/-- C8: the existence-filtered flattened list equals the concatenation, in
category order and intra-category order, of the per-category filtered item
lists; it also equals the concatenation over the category structure passed
to the index page, and every category in that structure is non-empty (the
empty-filtered categories are dropped). -/
theorem c8_filter_flatten (ex : String → Bool) (c : Catalog) :
    filteredExamples ex c
        = ((c.categories.map (fun cat =>
            cat.items.filter (fun i => ex i.dir))).flatten)
    ∧ filteredExamples ex c
        = ((filteredCategories ex c).map (fun cat => cat.items)).flatten
    ∧ ∀ cat ∈ filteredCategories ex c, cat.items ≠ [] := by
  have h1 : filteredExamples ex c
      = ((c.categories.map (fun cat =>
          cat.items.filter (fun i => ex i.dir))).flatten) := by
    rw [filteredExamples, flattenCatalog, List.filter_flatMap]
    rw [List.flatMap_def]
  refine ⟨h1, ?_, ?_⟩
  · rw [filteredCategories, flatten_filter_nonempty, List.map_map, h1]
    rfl
  · intro cat hmem
    have := (List.mem_filter.mp hmem).2
    simp only [decide_eq_true_eq] at this
    exact List.length_pos.mp this

/-- C8 (witness): the non-emptiness clause at the surviving first category
of the sample catalog. -/
theorem c8_witness :
    (⟨("core"), [entryA, entryB]⟩ : Category).items ≠ [] :=
  (c8_filter_flatten sampleEx sampleCatalog).2.2
    ⟨("core"), [entryA, entryB]⟩ (by decide)

end Generate
